import Mathlib

/-!
Shallow embedding of the GitHub stars crawler
(scripts/crawl_stars_graphql.py) and proofs about it.

Conventions of the embedding:
* JSON-optional values are `Option` types; a JSON `null` node in the
  `nodes` array is `none : Option RawNode`.
* Python truthiness of the `databaseId` field (`if not dbid`) is
  `truthyInt`: both `None` and `0` are falsy.
* Wall-clock instants and sleep durations are rationals (`ℚ`); one
  `random()` draw is modelled as a rational in `[0, 1)` supplied by the
  environment.
* The database is modelled as lists of rows with keyed upsert semantics
  mirroring `INSERT ... ON CONFLICT ... DO UPDATE`.
* One iteration of the `while` loop in `main` is the step function
  `crawlStep`; observable side effects (sleeps, warning prints, the
  ingestion commit, the checkpoint write) are recorded in order in a
  list of `Event`s.
-/

namespace Crawler

/-- The `owner { login }` object of a raw GraphQL repository node. -/
structure Owner where
  login : Option String
deriving DecidableEq

/-- The `primaryLanguage { name }` object of a raw node. -/
structure Language where
  name : Option String
deriving DecidableEq

/-- One non-null entry of `search.nodes` as consumed by `main`
(lines 222 to 246 of the source read fields `id`, `databaseId`,
`name`, `owner.login`, `url`, `description`, `primaryLanguage.name`,
`stargazerCount`, `updatedAt`). -/
structure RawNode where
  id : Option String
  databaseId : Option Int
  name : Option String
  owner : Option Owner
  url : Option String
  description : Option String
  primaryLanguage : Option Language
  stargazerCount : Option Int
  updatedAt : Option String
deriving DecidableEq

/-- Python truthiness of an optional integer: `None` and `0` are falsy,
so this models the test `if not dbid` on line 231. -/
def truthyInt : Option Int → Bool
  | none => false
  | some v => v != 0

/-- Models `(n.get("owner") or \x7b\x7d).get("login")` on line 227. -/
def ownerLogin : Option Owner → Option String
  | none => none
  | some o => o.login

/-- Models `(n.get("primaryLanguage") or \x7b\x7d).get("name")` on line 243. -/
def languageName : Option Language → Option String
  | none => none
  | some l => l.name

/-- Python f-string rendering of an optional string: `None` renders as
the text "None", as in `f"\x7bowner\x7d/\x7bname\x7d"` on line 240. -/
def pyStr : Option String → String
  | none => "None"
  | some s => s

/-- Models `n.get("stargazerCount") or 0` on line 244 (for an integer
value `v`, `v or 0` equals `v` when `v` is truthy and `0 = v` when
`v = 0`, so it coincides with defaulting `None` to `0`). -/
def orZeroInt : Option Int → Int
  | none => 0
  | some v => v

/-- The normalized record dict appended to `rows` (lines 235 to 246). -/
structure Record where
  repo_id : Int
  github_node_id : Option String
  owner : Option String
  name : Option String
  full_name : String
  url : Option String
  description : Option String
  language : Option String
  stargazerCount : Int
  updatedAt : Option String
deriving DecidableEq

/-- Outcome of processing one element of `search.nodes` in the parsing
loop of `main` (lines 223 to 246). -/
inductive NodeResult
  | nullNode
  | missingId
  | ok (r : Record)
deriving DecidableEq

/-- The record dict built for a usable node (lines 235 to 246);
`repo_id` is `int(dbid)`, read off the `databaseId` field. -/
def mkRecord (n : RawNode) : Record :=
  { repo_id := n.databaseId.getD 0
    github_node_id := n.id
    owner := ownerLogin n.owner
    name := n.name
    full_name := pyStr (ownerLogin n.owner) ++ "/" ++ pyStr n.name
    url := n.url
    description := n.description
    language := languageName n.primaryLanguage
    stargazerCount := orZeroInt n.stargazerCount
    updatedAt := n.updatedAt }

/-- One pass of the node-parsing loop body: a null node is skipped
silently (line 224), a node whose `databaseId` is falsy is skipped with
a warning (lines 231 to 233), and otherwise a record is built
(lines 235 to 246). -/
def parseNode : Option RawNode → NodeResult
  | none => NodeResult.nullNode
  | some n =>
      if truthyInt n.databaseId then NodeResult.ok (mkRecord n)
      else NodeResult.missingId

/-- The whole node-parsing loop: returns the `rows` list in input order
together with the number of warning prints emitted. -/
def parseNodes : List (Option RawNode) → List Record × Nat
  | [] => ([], 0)
  | n :: rest =>
      match parseNode n with
      | NodeResult.nullNode => parseNodes rest
      | NodeResult.missingId =>
          let p := parseNodes rest
          (p.1, p.2 + 1)
      | NodeResult.ok r =>
          let p := parseNodes rest
          (r :: p.1, p.2)

/-- A node is usable when it is non-null and its `databaseId` is truthy;
exactly the usable nodes yield records. -/
def usable : Option RawNode → Bool
  | none => false
  | some n => truthyInt n.databaseId

def rawZero : RawNode :=
  { id := some "z", databaseId := some 0, name := some "a", owner := none,
    url := none, description := none, primaryLanguage := none,
    stargazerCount := none, updatedAt := none }

/-- Sample raw node with a valid `databaseId`. -/
def rawGood : RawNode :=
  { id := some "g", databaseId := some 5, name := some "b", owner := none,
    url := none, description := none, primaryLanguage := none,
    stargazerCount := none, updatedAt := none }

section Table

variable {α : Type} {κ : Type} [DecidableEq κ]

/-- One `INSERT ... ON CONFLICT (key) DO UPDATE` of a single value into a
table held as a list of rows: the first row with the same key is
replaced wholesale, otherwise the row is appended. -/
def upsertRow (key : α → κ) : List α → α → List α
  | [], v => [v]
  | r :: t, v => if key r = key v then v :: t else r :: upsertRow key t v

/-- A batched upsert (`execute_values` applies the per-row upsert to each
value in order). -/
def upsertBatch (key : α → κ) (t : List α) (vs : List α) : List α :=
  vs.foldl (upsertRow key) t

/-- The keys of a table, in row order. -/
def tkeys (key : α → κ) (t : List α) : List κ := t.map key

/-- Lookup of the first row with a given key. -/
def getRow (key : α → κ) : List α → κ → Option α
  | [], _ => none
  | r :: t, k => if key r = k then some r else getRow key t k

/-- The last value in a batch carrying a given key, if any. -/
def lastWith (key : α → κ) : List α → κ → Option α
  | [], _ => none
  | v :: vs, k =>
      match lastWith key vs k with
      | some w => some w
      | none => if key v = k then some v else none

end Table

/-- A row of the `repos` table, with the columns written by the batch
insert on lines 121 to 138. -/
structure RepoRow where
  repo_id : Int
  github_node_id : Option String
  owner : Option String
  name : Option String
  full_name : String
  url : Option String
  description : Option String
  language : Option String
  stargazers_count : Int
  last_repo_updated_at : Option String
  last_crawled_at : ℚ
  updated_local_at : ℚ
deriving DecidableEq

/-- The `repos` tuple built for one record (lines 104 to 117). -/
def repoRowOf (now : ℚ) (r : Record) : RepoRow :=
  { repo_id := r.repo_id
    github_node_id := r.github_node_id
    owner := r.owner
    name := r.name
    full_name := r.full_name
    url := r.url
    description := r.description
    language := r.language
    stargazers_count := r.stargazerCount
    last_repo_updated_at := r.updatedAt
    last_crawled_at := now
    updated_local_at := now }

/-- A row of the `repo_stars_history` table (lines 141 to 146). -/
structure SnapshotRow where
  repo_id : Int
  snapshot_date : Nat
  stargazers_count : Int
deriving DecidableEq

/-- The snapshot tuple built for one record (line 118). -/
def snapshotRowOf (today : Nat) (r : Record) : SnapshotRow :=
  { repo_id := r.repo_id, snapshot_date := today, stargazers_count := r.stargazerCount }

/-- Conflict key of the `repos` table: `ON CONFLICT (repo_id)`. -/
def repoKey (r : RepoRow) : Int := r.repo_id

/-- Conflict key of `repo_stars_history`:
`ON CONFLICT (repo_id, snapshot_date)`. -/
def snapshotKey (s : SnapshotRow) : Int × Nat := (s.repo_id, s.snapshot_date)

/-- The durable state touched by the ingestion sink. -/
structure DB where
  repos : List RepoRow
  snapshots : List SnapshotRow
deriving DecidableEq

/-- The ingestion sink `upsert_repos_and_snapshots` (lines 90 to 148):
a no-op on an empty batch, otherwise one batched upsert into `repos`
keyed by `repo_id` and one into `repo_stars_history` keyed by
`(repo_id, snapshot_date)`, committed together. -/
def upsert_repos_and_snapshots (db : DB) (rows : List Record) (today : Nat) (now : ℚ) : DB :=
  if rows = [] then db
  else
    { repos := upsertBatch repoKey db.repos (rows.map (repoRowOf now))
      snapshots := upsertBatch snapshotKey db.snapshots (rows.map (snapshotRowOf today)) }

/-- The `resetAt` field of the rate-limit telemetry as seen by the
parsing on lines 205 to 208: absent (`None`, whose `.replace` raises),
present but unparsable (`fromisoformat` raises), or parsed to an
instant. -/
inductive ResetField
  | absent
  | malformed
  | parsed (t : ℚ)
deriving DecidableEq

/-- The `rateLimit` object of a response; both fields may be missing. -/
structure RateLimitInfo where
  remaining : Option Int
  resetAt : ResetField
deriving DecidableEq

/-- Models `rl.get("remaining", 5000)` after
`rl = data.get("data", ...).get("rateLimit", ...)` (lines 201 to 202):
a missing `rateLimit` object or a missing `remaining` key both default
to 5000. -/
def remainingOf : Option RateLimitInfo → Int
  | none => 5000
  | some rl => rl.remaining.getD 5000

/-- Models `rl.get("resetAt")` (line 205): a missing `rateLimit` object
behaves like an absent `resetAt`. -/
def resetOf : Option RateLimitInfo → ResetField
  | none => ResetField.absent
  | some rl => rl.resetAt

/-- A successful (HTTP 200, no GraphQL errors) response as consumed by
the loop body (lines 201 to 219). -/
structure Page where
  rateLimit : Option RateLimitInfo
  nodes : List (Option RawNode)
  hasNextPage : Bool
  endCursor : Option String
deriving DecidableEq

/-- Classified outcome of one `graphql_post` attempt: a raised network
exception (line 179), a non-200 HTTP status (line 185), a 200 response
whose body carries a GraphQL error list (line 195), or a usable page.
`httpError` is only built for a status other than 200. -/
inductive FetchResult
  | netError
  | httpError (status : Nat)
  | graphqlErrors
  | ok (page : Page)
deriving DecidableEq

/-- The statuses retried with exponential backoff on line 187. -/
def retryableStatus (status : Nat) : Bool :=
  status == 502 || status == 503 || status == 504 || status == 429

/-- A fetch failure that escalates the backoff: a network error or one
of the retryable HTTP statuses. -/
def retryable : FetchResult → Bool
  | FetchResult.netError => true
  | FetchResult.httpError s => retryableStatus s
  | _ => false

/-- Which sleep call produced a sleep event. -/
inductive SleepKind
  | backoffWait
  | fixedPause
  | protocolPause
  | quotaWait
  | quotaFallback
  | interPage
deriving DecidableEq

/-- Observable effects of one loop iteration, in program order. -/
inductive Event
  | sleep (kind : SleepKind) (duration : ℚ)
  | warn
  | ingestCommit (rows : List Record)
  | checkpointWrite (cursor : String)
deriving DecidableEq

/-- `safe_sleep(seconds)` sleeps `seconds + random() * 0.3`
(lines 150 to 151); `rnd` models the `random()` draw in `[0, 1)`. -/
def safe_sleep (seconds rnd : ℚ) : ℚ := seconds + rnd * (3 / 10)

/-- The rate-governor block (lines 204 to 213): below 500 remaining,
sleep until five units past the parsed reset instant when that wait is
positive, and fall back to `safe_sleep(30)` when reading or parsing
`resetAt` raises. -/
def governorEvents (remaining : Int) (reset : ResetField) (now rnd : ℚ) : List Event :=
  if remaining < 500 then
    match reset with
    | ResetField.parsed t =>
        if 0 < t - now + 5 then [Event.sleep SleepKind.quotaWait (max 0 (t - now + 5))]
        else []
    | _ => [Event.sleep SleepKind.quotaFallback (safe_sleep 30 rnd)]
  else []

/-- The in-memory state of `main` carried across loop iterations,
together with the durable stores it writes: `fetched`, the `after`
cursor variable, `backoff_base`, the database tables, and the single
checkpoint row for the configured key. -/
structure LoopState where
  fetched : Nat
  after : Option String
  backoff_base : ℚ
  db : DB
  checkpoint : Option String
deriving DecidableEq

/-- `write_checkpoint` (lines 79 to 88): upsert of the single checkpoint
row for the configured key. -/
def write_checkpoint (_store : Option String) (value : String) : Option String :=
  some value

/-- How one iteration left the loop: `cont`inue with a next iteration,
normal termination (the `break`s on lines 257 and 268 and the `while`
guard on line 174), or an uncaught storage exception during the batch
commit. -/
inductive StepResult
  | cont (s : LoopState)
  | done (s : LoopState)
  | failed (s : LoopState)
deriving DecidableEq

/-- The state carried out of a step. -/
def StepResult.state : StepResult → LoopState
  | StepResult.cont s => s
  | StepResult.done s => s
  | StepResult.failed s => s

def StepResult.isDone : StepResult → Bool
  | StepResult.done _ => true
  | _ => false

def StepResult.isCont : StepResult → Bool
  | StepResult.cont _ => true
  | _ => false

/-- Per-iteration inputs from the outside world: the two `random()`
draws an iteration can make, the current instant, the current date, and
whether a batch commit issued this iteration would succeed. -/
structure Env where
  jitter : ℚ
  jitter2 : ℚ
  now : ℚ
  today : Nat
  commitOk : Bool
deriving DecidableEq

/-- One iteration of the `while fetched < args.total` loop of `main`
(lines 174 to 273), entered with `st.fetched < total`, given the
classified outcome `fr` of this iteration's fetch attempt:

* network error (lines 179 to 183): `safe_sleep(backoff_base)`, double
  the backoff up to 60, try again;
* HTTP status in 502/503/504/429 (lines 187 to 190): same;
* other non-200 status (lines 191 to 192): `time.sleep(2)`, try again;
* GraphQL error list (lines 195 to 198): `safe_sleep(2)`, try again;
* usable page: rate-governor sleep (lines 204 to 213), node parsing
  with its warnings (lines 222 to 246), then: an empty `rows` breaks
  the loop (line 257); otherwise the batch commit (line 249) either
  raises (uncaught, the run fails with nothing else written) or
  commits, `fetched` grows, the checkpoint row and `after` advance
  when `endCursor` is present (lines 260 to 262), `backoff_base`
  resets to 1 (line 264), a false `hasNextPage` breaks (line 268),
  the sub-1000-quota pause runs (lines 271 to 272), and the `while`
  guard decides whether another iteration follows. -/
def crawlStep (total : Nat) (st : LoopState) (fr : FetchResult) (env : Env) :
    StepResult × List Event :=
  match fr with
  | FetchResult.netError =>
      (StepResult.cont { st with backoff_base := min (st.backoff_base * 2) 60 },
       [Event.sleep SleepKind.backoffWait (safe_sleep st.backoff_base env.jitter)])
  | FetchResult.httpError status =>
      if retryableStatus status then
        (StepResult.cont { st with backoff_base := min (st.backoff_base * 2) 60 },
         [Event.sleep SleepKind.backoffWait (safe_sleep st.backoff_base env.jitter)])
      else
        (StepResult.cont st, [Event.sleep SleepKind.fixedPause 2])
  | FetchResult.graphqlErrors =>
      (StepResult.cont st, [Event.sleep SleepKind.protocolPause (safe_sleep 2 env.jitter)])
  | FetchResult.ok page =>
      let remaining := remainingOf page.rateLimit
      let gov := governorEvents remaining (resetOf page.rateLimit) env.now env.jitter
      let parsed := parseNodes page.nodes
      let rows := parsed.1
      let warns := List.replicate parsed.2 Event.warn
      if rows = [] then
        (StepResult.done st, gov ++ warns)
      else if env.commitOk = false then
        (StepResult.failed st, gov ++ warns)
      else
        let db2 := upsert_repos_and_snapshots st.db rows env.today env.now
        let fetched2 := st.fetched + rows.length
        let cp2 : Option String :=
          match page.endCursor with
          | some c => write_checkpoint st.checkpoint c
          | none => st.checkpoint
        let after2 : Option String :=
          match page.endCursor with
          | some c => some c
          | none => st.after
        let cpEvents : List Event :=
          match page.endCursor with
          | some c => [Event.checkpointWrite c]
          | none => []
        let st2 : LoopState :=
          { fetched := fetched2, after := after2, backoff_base := 1,
            db := db2, checkpoint := cp2 }
        let base := gov ++ warns ++ Event.ingestCommit rows :: cpEvents
        if page.hasNextPage = false then
          (StepResult.done st2, base)
        else
          let pause : List Event :=
            if remaining < 1000 then
              [Event.sleep SleepKind.interPage (safe_sleep (1 / 2) env.jitter2)]
            else []
          if total ≤ fetched2 then (StepResult.done st2, base ++ pause)
          else (StepResult.cont st2, base ++ pause)

/-- The value of `backoff_base` produced by k consecutive applications
of the escalation `backoff_base = min(backoff_base * 2, 60)` starting
from the reset value 1. -/
def backoffIter : Nat → ℚ
  | 0 => 1
  | k + 1 => min (backoffIter k * 2) 60

/-- Sleep events the rate governor or the inter-page pause could emit. -/
def ratePause : Event → Bool
  | Event.sleep SleepKind.quotaWait _ => true
  | Event.sleep SleepKind.quotaFallback _ => true
  | Event.sleep SleepKind.interPage _ => true
  | _ => false

/-- Empty database sample. -/
def db0 : DB := { repos := [], snapshots := [] }

/-- Fresh loop state sample, as after `INIT` with no prior checkpoint. -/
def st0 : LoopState :=
  { fetched := 0, after := none, backoff_base := 1, db := db0, checkpoint := none }

/-- Environment sample with zero jitter draws. -/
def env0 : Env := { jitter := 0, jitter2 := 0, now := 0, today := 0, commitOk := true }

/-- Environment sample whose first `random()` draw is one half. -/
def envHalf : Env := { jitter := 1 / 2, jitter2 := 0, now := 0, today := 0, commitOk := true }

def pageLast : Page :=
  { rateLimit := none, nodes := [some rawGood], hasNextPage := false,
    endCursor := some "c1" }

def pageMal : Page :=
  { rateLimit := some { remaining := some 400, resetAt := ResetField.malformed },
    nodes := [some rawGood], hasNextPage := true, endCursor := some "c1" }

/-- Claim C4 as stated is refuted: with 400 remaining and a malformed
reset timestamp, and a `random()` draw of one half, the slept delay is
30.15 time units, not exactly 30: `safe_sleep(30)` adds jitter. -/

theorem parseNodes_append (a b : List (Option RawNode)) :
    parseNodes (a ++ b)
      = ((parseNodes a).1 ++ (parseNodes b).1, (parseNodes a).2 + (parseNodes b).2) := by
  induction a with
  | nil => simp [parseNodes]
  | cons n rest ih =>
      cases h : parseNode n with
      | nullNode => simp [parseNodes, h, ih]
      | missingId => simp [parseNodes, h, ih]; omega
      | ok r => simp [parseNodes, h, ih]

theorem parseNode_of_usable (n : Option RawNode) (h : usable n = true) :
    ∃ r, parseNode n = NodeResult.ok r := by
  cases n with
  | none => simp [usable] at h
  | some raw =>
      simp only [usable] at h
      exact ⟨mkRecord raw, by simp [parseNode, h]⟩

theorem parseNodes_all_usable (l : List (Option RawNode))
    (h : ∀ n ∈ l, usable n = true) :
    (parseNodes l).1.length = l.length ∧ (parseNodes l).2 = 0 := by
  induction l with
  | nil => simp [parseNodes]
  | cons n rest ih =>
      obtain ⟨r, hr⟩ := parseNode_of_usable n (h n (List.mem_cons_self n rest))
      have ihr := ih (fun m hm => h m (List.mem_cons_of_mem n hm))
      simp [parseNodes, hr, ihr.1, ihr.2]

theorem parseNodes_repo_id_ne_zero (l : List (Option RawNode)) (r : Record)
    (hr : r ∈ (parseNodes l).1) : r.repo_id ≠ 0 := by
  induction l with
  | nil => simp [parseNodes] at hr
  | cons n rest ih =>
      cases n with
      | none => exact ih (by simpa [parseNodes, parseNode] using hr)
      | some raw =>
          by_cases h : truthyInt raw.databaseId = true
          · simp only [parseNodes, parseNode, h, if_true] at hr
            rcases List.mem_cons.mp hr with heq | hmem
            · subst heq
              cases hdb : raw.databaseId with
              | none => rw [hdb] at h; simp [truthyInt] at h
              | some v =>
                  rw [hdb] at h
                  simp only [truthyInt, bne_iff_ne, ne_eq, decide_eq_true_eq] at h
                  simpa [mkRecord, hdb] using h
            · exact ih hmem
          · simp only [parseNodes, parseNode, h, if_false] at hr
            exact ih hr

/-- Claim C6: a page containing one entry with a null identifier among N
valid entries yields exactly N records (the records of the surrounding
valid entries, in order), emits exactly one warning signal, and
processing of the page is not aborted: entries after the bad one still
produce their records. -/
theorem C6_malformed_entry_tolerance (pre post : List (Option RawNode)) (raw : RawNode)
    (hbad : truthyInt raw.databaseId = false)
    (hgood : ∀ n ∈ pre ++ post, usable n = true) :
    (parseNodes (pre ++ some raw :: post)).1
        = (parseNodes pre).1 ++ (parseNodes post).1
      ∧ (parseNodes (pre ++ some raw :: post)).1.length = (pre ++ post).length
      ∧ (parseNodes (pre ++ some raw :: post)).2 = 1 := by
  have hpre := parseNodes_all_usable pre (fun n hn => hgood n (List.mem_append_left _ hn))
  have hpost := parseNodes_all_usable post (fun n hn => hgood n (List.mem_append_right _ hn))
  have hmid : parseNodes (some raw :: post)
      = ((parseNodes post).1, (parseNodes post).2 + 1) := by
    simp [parseNodes, parseNode, hbad]
  constructor
  · rw [parseNodes_append, hmid]
  · constructor
    · rw [parseNodes_append, hmid]
      simp [hpre.1, hpost.1]
    · rw [parseNodes_append, hmid]
      simp [hpre.2, hpost.2]

theorem C6_malformed_entry_tolerance_witness :
    letI n1 : RawNode :=
      { id := some "n1", databaseId := some 7, name := some "a", owner := none,
        url := none, description := none, primaryLanguage := none,
        stargazerCount := some 3, updatedAt := none }
    letI n2 : RawNode :=
      { id := some "n2", databaseId := some 9, name := some "b", owner := none,
        url := none, description := none, primaryLanguage := none,
        stargazerCount := none, updatedAt := none }
    letI bad : RawNode :=
      { id := some "nx", databaseId := none, name := some "c", owner := none,
        url := none, description := none, primaryLanguage := none,
        stargazerCount := none, updatedAt := none }
    (parseNodes ([some n1] ++ some bad :: [some n2])).1
        = (parseNodes [some n1]).1 ++ (parseNodes [some n2]).1
      ∧ (parseNodes ([some n1] ++ some bad :: [some n2])).1.length
          = ([some n1] ++ [some n2]).length
      ∧ (parseNodes ([some n1] ++ some bad :: [some n2])).2 = 1 :=
  C6_malformed_entry_tolerance [some _] [some _] _ (by decide)
    (by intro n hn; fin_cases hn <;> decide)

/-- Claim C8: a raw entry whose `databaseId` is present but equal to 0 is
discarded with a warning exactly as if the field were absent (Python
`if not dbid` treats 0 as falsy), and no record with `repo_id = 0` is
ever contained in the parsed rows passed to the ingestion sink. -/
theorem C8_zero_id_discarded (raw : RawNode) (ns : List (Option RawNode)) (r : Record)
    (h0 : raw.databaseId = some 0) (hr : r ∈ (parseNodes ns).1) :
    parseNode (some raw) = NodeResult.missingId
      ∧ parseNode (some raw) = parseNode (some { raw with databaseId := none })
      ∧ r.repo_id ≠ 0 := by
  refine ⟨?_, ?_, parseNodes_repo_id_ne_zero ns r hr⟩
  · simp [parseNode, truthyInt, h0]
  · simp [parseNode, truthyInt, h0]

/-- Sample raw node whose `databaseId` is literally 0. -/
theorem C8_zero_id_discarded_witness :
    parseNode (some rawZero) = NodeResult.missingId
      ∧ parseNode (some rawZero) = parseNode (some { rawZero with databaseId := none })
      ∧ (mkRecord rawGood).repo_id ≠ 0 :=
  C8_zero_id_discarded rawZero [some rawGood] (mkRecord rawGood) (by decide) (by decide)

/-- Claim C10: a raw entry with a valid numeric identifier is never
discarded for lacking an owner or a short name: a record is produced,
whose `owner` and `name` carry the possibly absent values and whose
`full_name` is the f-string interpolation of those values (an absent
value renders as the text "None"). -/
theorem C10_missing_owner_name_kept (raw : RawNode)
    (hid : truthyInt raw.databaseId = true) :
    ∃ r, parseNode (some raw) = NodeResult.ok r
      ∧ r.owner = ownerLogin raw.owner
      ∧ r.name = raw.name
      ∧ r.full_name = pyStr (ownerLogin raw.owner) ++ "/" ++ pyStr raw.name := by
  exact ⟨mkRecord raw, by simp [parseNode, hid], rfl, rfl, rfl⟩

section Table

variable {α : Type} {κ : Type} [DecidableEq κ]

omit [DecidableEq κ] in
theorem tkeys_cons (key : α → κ) (r : α) (t : List α) :
    tkeys key (r :: t) = key r :: tkeys key t := rfl

theorem getRow_upsertRow (key : α → κ) (t : List α) (v : α) (k : κ) :
    getRow key (upsertRow key t v) k
      = if k = key v then some v else getRow key t k := by
  induction t with
  | nil =>
      by_cases h : k = key v
      · simp [upsertRow, getRow, h]
      · simp [upsertRow, getRow, h, Ne.symm h]
  | cons r t ih =>
      by_cases hr : key r = key v
      · by_cases h : k = key v
        · simp [upsertRow, getRow, hr, h]
        · have h3 : ¬ key r = k := fun hh => h (hr.symm.trans hh).symm
          simp [upsertRow, getRow, hr, h, Ne.symm h, h3]
      · by_cases hk : key r = k
        · have h4 : ¬ k = key v := fun hh => hr (hk.trans hh)
          simp [upsertRow, getRow, hr, hk, h4]
        · simp [upsertRow, getRow, hr, hk, ih]

theorem tkeys_upsertRow (key : α → κ) (t : List α) (v : α) :
    tkeys key (upsertRow key t v)
      = if key v ∈ tkeys key t then tkeys key t else tkeys key t ++ [key v] := by
  induction t with
  | nil => simp [upsertRow, tkeys]
  | cons r t ih =>
      by_cases hr : key r = key v
      · have hm : key v ∈ tkeys key (r :: t) := by
          rw [tkeys_cons, hr]
          exact List.mem_cons_self _ _
        simp only [upsertRow, if_pos hr, if_pos hm]
        rw [tkeys_cons, tkeys_cons, hr]
      · simp only [upsertRow, if_neg hr]
        by_cases hm : key v ∈ tkeys key t
        · have hm2 : key v ∈ tkeys key (r :: t) := by
            rw [tkeys_cons]
            exact List.mem_cons_of_mem _ hm
          rw [if_pos hm2, tkeys_cons, ih, if_pos hm, tkeys_cons]
        · have hm2 : key v ∉ tkeys key (r :: t) := by
            rw [tkeys_cons]
            intro hmem
            rcases List.mem_cons.mp hmem with he | hmem2
            · exact hr he.symm
            · exact hm hmem2
          rw [if_neg hm2, tkeys_cons, ih, if_neg hm, tkeys_cons, List.cons_append]

theorem tkeys_upsertRow_nodup (key : α → κ) (t : List α) (v : α)
    (h : (tkeys key t).Nodup) : (tkeys key (upsertRow key t v)).Nodup := by
  rw [tkeys_upsertRow]
  by_cases hm : key v ∈ tkeys key t
  · rw [if_pos hm]
    exact h
  · rw [if_neg hm]
    refine List.Nodup.append h (List.nodup_singleton _) ?_
    intro a ha hb
    rw [List.mem_singleton] at hb
    exact hm (hb ▸ ha)

theorem getRow_eq_none_iff (key : α → κ) (t : List α) (k : κ) :
    getRow key t k = none ↔ k ∉ tkeys key t := by
  induction t with
  | nil => simp [getRow, tkeys]
  | cons r t ih =>
      rw [tkeys_cons]
      by_cases hr : key r = k
      · simp [getRow, hr]
      · simp only [getRow, if_neg hr, ih, List.mem_cons]
        constructor
        · intro h hm
          rcases hm with he | hm2
          · exact hr he.symm
          · exact h hm2
        · intro h hm
          exact h (Or.inr hm)

theorem getRow_upsertBatch (key : α → κ) (vs : List α) (t : List α) (k : κ) :
    getRow key (upsertBatch key t vs) k
      = match lastWith key vs k with
        | some w => some w
        | none => getRow key t k := by
  induction vs generalizing t with
  | nil => simp [upsertBatch, lastWith]
  | cons v vs ih =>
      have hstep : upsertBatch key t (v :: vs) = upsertBatch key (upsertRow key t v) vs := rfl
      rw [hstep, ih]
      cases hl : lastWith key vs k with
      | some w =>
          have h2 : lastWith key (v :: vs) k = some w := by simp [lastWith, hl]
          rw [h2]
      | none =>
          have h2 : lastWith key (v :: vs) k
              = if key v = k then some v else none := by simp [lastWith, hl]
          rw [h2, getRow_upsertRow]
          by_cases hk : key v = k
          · simp [hk]
          · rw [if_neg hk, if_neg (fun hh : k = key v => hk hh.symm)]

theorem mem_tkeys_upsertRow (key : α → κ) (t : List α) (v : α) (k : κ)
    (h : k ∈ tkeys key t) : k ∈ tkeys key (upsertRow key t v) := by
  rw [tkeys_upsertRow]
  by_cases hm : key v ∈ tkeys key t <;> simp [hm, h]

theorem self_mem_tkeys_upsertRow (key : α → κ) (t : List α) (v : α) :
    key v ∈ tkeys key (upsertRow key t v) := by
  rw [tkeys_upsertRow]
  by_cases hm : key v ∈ tkeys key t <;> simp [hm]

theorem mem_tkeys_upsertBatch (key : α → κ) :
    ∀ (vs t : List α) (k : κ), k ∈ tkeys key t → k ∈ tkeys key (upsertBatch key t vs)
  | [], _, _, h => h
  | v :: vs, t, k, h =>
      mem_tkeys_upsertBatch key vs (upsertRow key t v) k (mem_tkeys_upsertRow key t v k h)

theorem batch_mem_tkeys_upsertBatch (key : α → κ) :
    ∀ (vs : List α) (v : α), v ∈ vs → ∀ t : List α, key v ∈ tkeys key (upsertBatch key t vs)
  | [], v, h, _ => absurd h (List.not_mem_nil v)
  | w :: vs, v, h, t => by
      rcases List.mem_cons.mp h with heq | hm
      · subst heq
        exact mem_tkeys_upsertBatch key vs _ _ (self_mem_tkeys_upsertRow key t v)
      · exact batch_mem_tkeys_upsertBatch key vs v hm (upsertRow key t w)

theorem tkeys_upsertBatch_of_sub (key : α → κ) (vs : List α) (t : List α)
    (h : ∀ v ∈ vs, key v ∈ tkeys key t) :
    tkeys key (upsertBatch key t vs) = tkeys key t := by
  induction vs generalizing t with
  | nil => simp [upsertBatch]
  | cons v vs ih =>
      have hk : tkeys key (upsertRow key t v) = tkeys key t := by
        rw [tkeys_upsertRow]
        simp [h v (List.mem_cons_self v vs)]
      show tkeys key (upsertBatch key (upsertRow key t v) vs) = _
      rw [ih _ (fun w hw => by rw [hk]; exact h w (List.mem_cons_of_mem v hw)), hk]

theorem tkeys_upsertBatch_nodup (key : α → κ) (vs : List α) (t : List α)
    (h : (tkeys key t).Nodup) : (tkeys key (upsertBatch key t vs)).Nodup := by
  induction vs generalizing t with
  | nil => simpa [upsertBatch]
  | cons v vs ih =>
      exact ih _ (tkeys_upsertRow_nodup key t v h)

theorem table_ext (key : α → κ) :
    ∀ t1 t2 : List α, (tkeys key t1).Nodup → tkeys key t1 = tkeys key t2 →
      (∀ k, getRow key t1 k = getRow key t2 k) → t1 = t2
  | [], [], _, _, _ => rfl
  | [], _ :: _, _, hk, _ => by simp [tkeys] at hk
  | _ :: _, [], _, hk, _ => by simp [tkeys] at hk
  | r1 :: t1, r2 :: t2, hn, hk, hg => by
      rw [tkeys_cons, tkeys_cons] at hk
      simp only [List.cons.injEq] at hk
      rw [tkeys_cons, List.nodup_cons] at hn
      have hr : r1 = r2 := by
        have h1 := hg (key r1)
        simp only [getRow, if_pos rfl] at h1
        rw [if_pos hk.1.symm] at h1
        exact Option.some_injective _ h1
      subst hr
      have ht : t1 = t2 := by
        apply table_ext key t1 t2 hn.2 hk.2
        intro k
        by_cases hkk : key r1 = k
        · have h1 : getRow key t1 k = none := by
            rw [getRow_eq_none_iff, ← hkk]
            exact hn.1
          have h2 : getRow key t2 k = none := by
            rw [getRow_eq_none_iff, ← hkk, ← hk.2]
            exact hn.1
          rw [h1, h2]
        · have h1 := hg k
          simp only [getRow, if_neg hkk] at h1
          exact h1
      rw [ht]

theorem upsertBatch_idem (key : α → κ) (t : List α) (vs : List α)
    (hn : (tkeys key t).Nodup) :
    upsertBatch key (upsertBatch key t vs) vs = upsertBatch key t vs := by
  have hn1 : (tkeys key (upsertBatch key t vs)).Nodup := tkeys_upsertBatch_nodup key vs t hn
  apply table_ext key _ _ (tkeys_upsertBatch_nodup key vs _ hn1)
  · exact tkeys_upsertBatch_of_sub key vs _ (fun v hv => batch_mem_tkeys_upsertBatch key vs v hv t)
  · intro k
    rw [getRow_upsertBatch, getRow_upsertBatch]
    cases hl : lastWith key vs k with
    | some w => simp
    | none => simp [getRow_upsertBatch, hl]

end Table

theorem backoffIter_eq (k : Nat) : backoffIter k = min ((2 : ℚ) ^ k) 60 := by
  induction k with
  | zero =>
      rw [backoffIter, pow_zero, min_eq_left]
      norm_num
  | succ k ih =>
      rw [backoffIter, ih]
      rcases le_total ((2 : ℚ) ^ k) 60 with h | h
      · rw [min_eq_left h, pow_succ]
      · have h2 : (60 : ℚ) ≤ 2 ^ (k + 1) := by
          rw [pow_succ]
          nlinarith [pow_pos (by norm_num : (0 : ℚ) < 2) k]
        rw [min_eq_right h, min_eq_right h2, min_eq_right (by norm_num : (60 : ℚ) ≤ 60 * 2)]

theorem backoff_reset_on_cont (total : Nat) (st : LoopState) (env : Env) (page : Page)
    (st3 : LoopState) (evs : List Event)
    (h : crawlStep total st (FetchResult.ok page) env = (StepResult.cont st3, evs)) :
    st3.backoff_base = 1 := by
  simp only [crawlStep] at h
  repeat' split at h
  all_goals simp_all
  all_goals rw [← h.1]

/-- Claim C1 as stated is refuted: on an HTTP 404 client error the loop
does not terminate; it pauses and continues with a further fetch
attempt. -/
theorem C1_client_error_counterexample :
    (crawlStep 100 st0 (FetchResult.httpError 404) env0).1 = StepResult.cont st0
      ∧ (crawlStep 100 st0 (FetchResult.httpError 404) env0).1.isCont = true
      ∧ (crawlStep 100 st0 (FetchResult.httpError 404) env0).1.isDone = false := by
  refine ⟨?_, ?_, ?_⟩ <;>
    simp [crawlStep, retryableStatus, StepResult.isCont, StepResult.isDone]

/-- Claim C1, amended: on a fetch attempt failing with a client error
(an HTTP status other than 200 that is not 502, 503, 504 or 429) the
crawl loop sleeps a fixed 2 time units, without jitter and without
touching the backoff state, and then retries: it continues with further
fetch attempts rather than terminating or surfacing the error. -/
theorem C1_client_error_retries (total : Nat) (st : LoopState) (env : Env) (status : Nat)
    (h : retryableStatus status = false) :
    crawlStep total st (FetchResult.httpError status) env
      = (StepResult.cont st, [Event.sleep SleepKind.fixedPause 2]) := by
  simp [crawlStep, h]

theorem C1_client_error_retries_witness :
    crawlStep 100 st0 (FetchResult.httpError 403) env0
      = (StepResult.cont st0, [Event.sleep SleepKind.fixedPause 2]) :=
  C1_client_error_retries 100 st0 env0 403 (by decide)

/-- Claim C3: with k prior consecutive retryable failures (network error
or HTTP 502/503/504/429) since the last reset, so that `backoff_base`
holds the k-times-escalated value, the next retryable failure sleeps
exactly `min(1 * 2 ^ k, 60)` plus a jitter term in `[0, 0.3)`, and
escalates the stored backoff to the (k+1)-fold value; the escalated
value is `min(2 ^ k, 60)` in closed form, the reset value is the base 1,
and any successful page iteration that continues the loop resets
`backoff_base` to 1 for the next failure streak. -/
theorem C3_backoff_growth_cap_reset (total k : Nat) (st : LoopState) (fr : FetchResult)
    (env : Env) (hret : retryable fr = true) (hb : st.backoff_base = backoffIter k)
    (hj0 : 0 ≤ env.jitter) (hj1 : env.jitter < 1) :
    (crawlStep total st fr env).2
        = [Event.sleep SleepKind.backoffWait (min ((2 : ℚ) ^ k) 60 + env.jitter * (3 / 10))]
      ∧ ((crawlStep total st fr env).1).state.backoff_base = backoffIter (k + 1)
      ∧ backoffIter k = min ((2 : ℚ) ^ k) 60
      ∧ backoffIter 0 = 1
      ∧ 0 ≤ env.jitter * (3 / 10) ∧ env.jitter * (3 / 10) < 3 / 10
      ∧ ∀ (st2 st3 : LoopState) (env2 : Env) (page : Page) (evs : List Event),
          crawlStep total st2 (FetchResult.ok page) env2 = (StepResult.cont st3, evs) →
          st3.backoff_base = 1 := by
  have hj2 : 0 ≤ env.jitter * (3 / 10) := by nlinarith
  have hj3 : env.jitter * (3 / 10) < 3 / 10 := by nlinarith
  have hmain : (crawlStep total st fr env).2
        = [Event.sleep SleepKind.backoffWait (min ((2 : ℚ) ^ k) 60 + env.jitter * (3 / 10))]
      ∧ ((crawlStep total st fr env).1).state.backoff_base = backoffIter (k + 1) := by
    cases fr with
    | netError =>
        constructor
        · simp [crawlStep, safe_sleep, hb, backoffIter_eq]
        · simp only [crawlStep, StepResult.state]
          rw [hb, backoffIter]
    | httpError s =>
        have hs : retryableStatus s = true := by simpa [retryable] using hret
        constructor
        · simp [crawlStep, hs, safe_sleep, hb, backoffIter_eq]
        · simp only [crawlStep, hs, if_true, StepResult.state]
          rw [hb, backoffIter]
    | graphqlErrors => simp [retryable] at hret
    | ok page => simp [retryable] at hret
  exact ⟨hmain.1, hmain.2, backoffIter_eq k, rfl, hj2, hj3,
    fun st2 st3 env2 page evs h => backoff_reset_on_cont total st2 env2 page st3 evs h⟩

theorem C3_backoff_growth_cap_reset_witness :
    (crawlStep 100 { st0 with backoff_base := backoffIter 3 } FetchResult.netError envHalf).2
        = [Event.sleep SleepKind.backoffWait
            (min ((2 : ℚ) ^ 3) 60 + envHalf.jitter * (3 / 10))]
      ∧ ((crawlStep 100 { st0 with backoff_base := backoffIter 3 }
            FetchResult.netError envHalf).1).state.backoff_base = backoffIter (3 + 1)
      ∧ backoffIter 3 = min ((2 : ℚ) ^ 3) 60
      ∧ backoffIter 0 = 1
      ∧ 0 ≤ envHalf.jitter * (3 / 10) ∧ envHalf.jitter * (3 / 10) < 3 / 10
      ∧ ∀ (st2 st3 : LoopState) (env2 : Env) (page : Page) (evs : List Event),
          crawlStep 100 st2 (FetchResult.ok page) env2 = (StepResult.cont st3, evs) →
          st3.backoff_base = 1 :=
  C3_backoff_growth_cap_reset 100 3 _ FetchResult.netError envHalf rfl rfl
    (by norm_num [envHalf]) (by norm_num [envHalf])

/-- Claim C7: entered with the target not yet reached and with storage
healthy, an iteration ends in normal (`DONE`) termination exactly when
the fetch produced a page and either the page yields zero usable
records, or the upstream reports no further pages, or the fetched count
reaches the requested target. -/
theorem C7_termination_conditions (total : Nat) (st : LoopState) (fr : FetchResult)
    (env : Env) (_hf : st.fetched < total) (hc : env.commitOk = true) :
    (crawlStep total st fr env).1.isDone = true
      ↔ ∃ page, fr = FetchResult.ok page
          ∧ ((parseNodes page.nodes).1 = []
             ∨ page.hasNextPage = false
             ∨ total ≤ st.fetched + (parseNodes page.nodes).1.length) := by
  cases fr with
  | netError => simp [crawlStep, StepResult.isDone]
  | httpError s =>
      by_cases h : retryableStatus s <;> simp [crawlStep, h, StepResult.isDone]
  | graphqlErrors => simp [crawlStep, StepResult.isDone]
  | ok page =>
      by_cases h1 : (parseNodes page.nodes).1 = []
      · simp [crawlStep, h1, StepResult.isDone]
      · by_cases h2 : page.hasNextPage = false
        · simp [crawlStep, h1, hc, h2, StepResult.isDone]
        · by_cases h3 : total ≤ st.fetched + (parseNodes page.nodes).1.length
          · simp [crawlStep, h1, hc, h2, h3, StepResult.isDone]
          · simp [crawlStep, h1, hc, h2, h3, StepResult.isDone]

/-- Sample page: one usable node, no further pages. -/
theorem C7_termination_conditions_witness :
    (crawlStep 100 st0 (FetchResult.ok pageLast) env0).1.isDone = true
      ↔ ∃ page, FetchResult.ok pageLast = FetchResult.ok page
          ∧ ((parseNodes page.nodes).1 = []
             ∨ page.hasNextPage = false
             ∨ 100 ≤ st0.fetched + (parseNodes page.nodes).1.length) :=
  C7_termination_conditions 100 st0 (FetchResult.ok pageLast) env0 (by decide) rfl

/-- Claim C9: a successful page whose response lacks the rate-limit
object is treated as 5000 remaining, so the rate governor emits no
sleep and the whole iteration performs neither the low-quota wait, nor
the fallback pause, nor the half-unit inter-page pause. -/
theorem C9_missing_telemetry_defaults (total : Nat) (st : LoopState) (env : Env)
    (page : Page) (hrl : page.rateLimit = none) :
    remainingOf page.rateLimit = 5000
      ∧ governorEvents (remainingOf page.rateLimit) (resetOf page.rateLimit)
          env.now env.jitter = []
      ∧ ∀ e ∈ (crawlStep total st (FetchResult.ok page) env).2, ratePause e = false := by
  have hgov : ∀ now rnd : ℚ, governorEvents 5000 ResetField.absent now rnd = [] := by
    intro now rnd
    norm_num [governorEvents]
  refine ⟨by rw [hrl]; rfl, by rw [hrl]; exact hgov _ _, ?_⟩
  intro e he
  simp only [crawlStep, hrl] at he
  rw [show remainingOf none = 5000 from rfl, show resetOf none = ResetField.absent from rfl,
    hgov] at he
  simp only [if_neg (show ¬ ((5000 : Int) < 1000) from by norm_num),
    List.nil_append] at he
  repeat' split at he
  all_goals simp only [List.append_nil, List.nil_append] at he
  all_goals
    first
    | (obtain rfl := List.eq_of_mem_replicate he; rfl)
    | (rcases List.mem_append.mp he with h | h
       · obtain rfl := List.eq_of_mem_replicate h
         rfl
       · rcases List.mem_cons.mp h with rfl | h2
         · rfl
         · first
           | (obtain rfl := List.mem_singleton.mp h2; rfl)
           | cases h2)

theorem C9_missing_telemetry_defaults_witness :
    letI page : Page :=
      { rateLimit := none, nodes := [some rawGood], hasNextPage := true,
        endCursor := some "c2" }
    remainingOf page.rateLimit = 5000
      ∧ governorEvents (remainingOf page.rateLimit) (resetOf page.rateLimit)
          env0.now env0.jitter = []
      ∧ ∀ e ∈ (crawlStep 100 st0 (FetchResult.ok page) env0).2, ratePause e = false :=
  C9_missing_telemetry_defaults 100 st0 env0 _ rfl

theorem mem_governorEvents_sleep (remaining : Int) (reset : ResetField) (now rnd : ℚ)
    (e : Event) (he : e ∈ governorEvents remaining reset now rnd) :
    ∃ k d, e = Event.sleep k d := by
  unfold governorEvents at he
  repeat' split at he
  all_goals
    first
    | (obtain rfl := List.mem_singleton.mp he; exact ⟨_, _, rfl⟩)
    | cases he

theorem crawlStep_ok_success (total : Nat) (st : LoopState) (env : Env) (page : Page)
    (hrows : (parseNodes page.nodes).1 ≠ []) (hc : env.commitOk = true) :
    ∃ tail, (∀ e ∈ tail, ∃ k d, e = Event.sleep k d)
      ∧ (crawlStep total st (FetchResult.ok page) env).2
          = governorEvents (remainingOf page.rateLimit) (resetOf page.rateLimit)
              env.now env.jitter
            ++ List.replicate (parseNodes page.nodes).2 Event.warn
            ++ Event.ingestCommit (parseNodes page.nodes).1
              :: ((match page.endCursor with
                   | some c => [Event.checkpointWrite c]
                   | none => []) ++ tail)
      ∧ ((crawlStep total st (FetchResult.ok page) env).1).state
          = { fetched := st.fetched + (parseNodes page.nodes).1.length
              after := match page.endCursor with
                       | some c => some c
                       | none => st.after
              backoff_base := 1
              db := upsert_repos_and_snapshots st.db (parseNodes page.nodes).1
                      env.today env.now
              checkpoint := match page.endCursor with
                            | some c => write_checkpoint st.checkpoint c
                            | none => st.checkpoint } := by
  by_cases hnext : page.hasNextPage = false
  · refine ⟨[], fun e he => absurd he (List.not_mem_nil e), ?_, ?_⟩
    · simp [crawlStep, if_neg hrows, hc, hnext]
    · simp [crawlStep, if_neg hrows, hc, hnext, StepResult.state]
  · by_cases htot : total ≤ st.fetched + (parseNodes page.nodes).1.length
    · refine ⟨(if remainingOf page.rateLimit < 1000 then
          [Event.sleep SleepKind.interPage (safe_sleep (1 / 2) env.jitter2)] else []),
        ?_, ?_, ?_⟩
      · intro e he
        split at he
        · obtain rfl := List.mem_singleton.mp he
          exact ⟨_, _, rfl⟩
        · cases he
      · simp [crawlStep, if_neg hrows, hc, hnext, htot, List.append_assoc]
      · simp [crawlStep, if_neg hrows, hc, hnext, htot, StepResult.state]
    · refine ⟨(if remainingOf page.rateLimit < 1000 then
          [Event.sleep SleepKind.interPage (safe_sleep (1 / 2) env.jitter2)] else []),
        ?_, ?_, ?_⟩
      · intro e he
        split at he
        · obtain rfl := List.mem_singleton.mp he
          exact ⟨_, _, rfl⟩
        · cases he
      · simp [crawlStep, if_neg hrows, hc, hnext, htot, List.append_assoc]
      · simp [crawlStep, if_neg hrows, hc, hnext, htot, StepResult.state]

/-- Claim C2: whenever an iteration writes a checkpoint cursor c, this
iteration processed a page whose batch was non-empty and whose commit
succeeded, the write is placed in the event order immediately after the
ingestion commit of exactly that batch, the resulting database state
holds the committed batch, and the stored cursor is that page's end
cursor. Contrapositively, an iteration whose batch commit did not
succeed performs no checkpoint write, so the cursor is never advanced
past such a page. -/
theorem C2_checkpoint_after_commit (total : Nat) (st : LoopState) (fr : FetchResult)
    (env : Env) (c : String)
    (h : Event.checkpointWrite c ∈ (crawlStep total st fr env).2) :
    env.commitOk = true
      ∧ ∃ page l1 l2, fr = FetchResult.ok page
          ∧ (parseNodes page.nodes).1 ≠ []
          ∧ page.endCursor = some c
          ∧ (crawlStep total st fr env).2
              = l1 ++ Event.ingestCommit (parseNodes page.nodes).1
                  :: Event.checkpointWrite c :: l2
          ∧ ((crawlStep total st fr env).1).state.db
              = upsert_repos_and_snapshots st.db (parseNodes page.nodes).1 env.today env.now
          ∧ ((crawlStep total st fr env).1).state.checkpoint = some c := by
  cases fr with
  | netError => simp [crawlStep] at h
  | httpError s =>
      by_cases hs : retryableStatus s <;> simp [crawlStep, hs] at h
  | graphqlErrors => simp [crawlStep] at h
  | ok page =>
      by_cases hrows : (parseNodes page.nodes).1 = []
      · exfalso
        simp only [crawlStep, if_pos hrows] at h
        rcases List.mem_append.mp h with hg | hw
        · obtain ⟨k, d, heq⟩ := mem_governorEvents_sleep _ _ _ _ _ hg
          cases heq
        · have := List.eq_of_mem_replicate hw
          cases this
      · by_cases hcommit : env.commitOk = true
        · obtain ⟨tail, htail, hev, hstate⟩ :=
            crawlStep_ok_success total st env page hrows hcommit
          rw [hev] at h
          cases hcur : page.endCursor with
          | none =>
              exfalso
              rw [hcur] at h
              simp only [List.nil_append] at h
              rcases List.mem_append.mp h with hgw | hw
              · rcases List.mem_append.mp hgw with hg | hw1
                · obtain ⟨k, d, heq⟩ := mem_governorEvents_sleep _ _ _ _ _ hg
                  cases heq
                · have := List.eq_of_mem_replicate hw1
                  cases this
              · rcases List.mem_cons.mp hw with heq | hin
                · cases heq
                · obtain ⟨k, d, heq⟩ := htail _ hin
                  cases heq
          | some c2 =>
              have hcc : c2 = c := by
                rw [hcur] at h
                rcases List.mem_append.mp h with hgw | hw
                · rcases List.mem_append.mp hgw with hg | hw1
                  · obtain ⟨k, d, heq⟩ := mem_governorEvents_sleep _ _ _ _ _ hg
                    cases heq
                  · have := List.eq_of_mem_replicate hw1
                    cases this
                · rcases List.mem_cons.mp hw with heq | hin
                  · cases heq
                  · rcases List.mem_append.mp hin with hin1 | hin2
                    · obtain heq := List.mem_singleton.mp hin1
                      injection heq with hcs
                      exact hcs.symm
                    · obtain ⟨k, d, heq⟩ := htail _ hin2
                      cases heq
              subst hcc
              refine ⟨hcommit, page,
                governorEvents (remainingOf page.rateLimit) (resetOf page.rateLimit)
                    env.now env.jitter
                  ++ List.replicate (parseNodes page.nodes).2 Event.warn,
                tail, rfl, hrows, hcur, ?_, ?_, ?_⟩
              · rw [hev, hcur]
                simp [List.singleton_append]
              · rw [hstate]
              · rw [hstate]
                simp [hcur, write_checkpoint]
        · exfalso
          have hc2 : env.commitOk = false := by
            cases hce : env.commitOk
            · rfl
            · exact absurd hce hcommit
          simp only [crawlStep, if_neg hrows, hc2, if_pos rfl] at h
          rcases List.mem_append.mp h with hg | hw
          · obtain ⟨k, d, heq⟩ := mem_governorEvents_sleep _ _ _ _ _ hg
            cases heq
          · have := List.eq_of_mem_replicate hw
            cases this

theorem C2_checkpoint_after_commit_witness :
    env0.commitOk = true
      ∧ ∃ page l1 l2, FetchResult.ok pageLast = FetchResult.ok page
          ∧ (parseNodes page.nodes).1 ≠ []
          ∧ page.endCursor = some "c1"
          ∧ (crawlStep 100 st0 (FetchResult.ok pageLast) env0).2
              = l1 ++ Event.ingestCommit (parseNodes page.nodes).1
                  :: Event.checkpointWrite "c1" :: l2
          ∧ ((crawlStep 100 st0 (FetchResult.ok pageLast) env0).1).state.db
              = upsert_repos_and_snapshots st0.db (parseNodes page.nodes).1
                  env0.today env0.now
          ∧ ((crawlStep 100 st0 (FetchResult.ok pageLast) env0).1).state.checkpoint
              = some "c1" :=
  C2_checkpoint_after_commit 100 st0 (FetchResult.ok pageLast) env0 "c1" (by decide)

/-- Sample page whose telemetry reports 400 remaining with an
unparsable reset timestamp. -/
theorem C4_quota_fallback_counterexample :
    (crawlStep 100 st0 (FetchResult.ok pageMal) envHalf).2.head?
        = some (Event.sleep SleepKind.quotaFallback (603 / 20))
      ∧ (603 / 20 : ℚ) ≠ 30 := by
  constructor
  · have hgov : governorEvents (remainingOf pageMal.rateLimit) (resetOf pageMal.rateLimit)
        envHalf.now envHalf.jitter
          = [Event.sleep SleepKind.quotaFallback (603 / 20)] := by
      norm_num [governorEvents, remainingOf, resetOf, pageMal, envHalf, safe_sleep]
    obtain ⟨tail, _, hev, _⟩ :=
      crawlStep_ok_success 100 st0 envHalf pageMal (by decide) rfl
    rw [hev, hgov]
    rfl
  · norm_num

/-- Claim C4, amended: for a successful page whose reported remaining
quota is below 500, the iteration starts with the rate-governor sleep:
if the reset timestamp parses to t, the loop sleeps `t - now + 5` when
that amount is positive (and does not sleep otherwise); if the reset
timestamp is malformed or absent, the delay is 30 time units plus a
jitter term in `[0, 0.3)` rather than exactly 30. -/
theorem C4_quota_governor (total : Nat) (st : LoopState) (env : Env) (page : Page)
    (t : ℚ) (hrem : remainingOf page.rateLimit < 500)
    (hj0 : 0 ≤ env.jitter) (hj1 : env.jitter < 1) :
    (∃ rest, (crawlStep total st (FetchResult.ok page) env).2
        = governorEvents (remainingOf page.rateLimit) (resetOf page.rateLimit)
            env.now env.jitter ++ rest)
      ∧ (resetOf page.rateLimit = ResetField.parsed t →
           governorEvents (remainingOf page.rateLimit) (resetOf page.rateLimit)
               env.now env.jitter
             = if 0 < t - env.now + 5
               then [Event.sleep SleepKind.quotaWait (max 0 (t - env.now + 5))]
               else [])
      ∧ ((resetOf page.rateLimit = ResetField.absent
            ∨ resetOf page.rateLimit = ResetField.malformed) →
           governorEvents (remainingOf page.rateLimit) (resetOf page.rateLimit)
               env.now env.jitter
               = [Event.sleep SleepKind.quotaFallback (30 + env.jitter * (3 / 10))]
             ∧ 0 ≤ env.jitter * (3 / 10) ∧ env.jitter * (3 / 10) < 3 / 10) := by
  refine ⟨?_, ?_, ?_⟩
  · simp only [crawlStep]
    by_cases h1 : (parseNodes page.nodes).1 = []
    · exact ⟨List.replicate (parseNodes page.nodes).2 Event.warn, by rw [if_pos h1]⟩
    · by_cases h2 : env.commitOk = false
      · exact ⟨List.replicate (parseNodes page.nodes).2 Event.warn,
          by rw [if_neg h1, if_pos h2]⟩
      · by_cases h3 : page.hasNextPage = false
        · refine ⟨List.replicate (parseNodes page.nodes).2 Event.warn
              ++ Event.ingestCommit (parseNodes page.nodes).1
                :: (match page.endCursor with
                    | some c => [Event.checkpointWrite c]
                    | none => []), ?_⟩
          rw [if_neg h1, if_neg h2, if_pos h3]
          simp [List.append_assoc]
        · by_cases h4 : total ≤ st.fetched + (parseNodes page.nodes).1.length
          · refine ⟨(List.replicate (parseNodes page.nodes).2 Event.warn
                ++ Event.ingestCommit (parseNodes page.nodes).1
                  :: (match page.endCursor with
                      | some c => [Event.checkpointWrite c]
                      | none => []))
                ++ (if remainingOf page.rateLimit < 1000 then
                      [Event.sleep SleepKind.interPage (safe_sleep (1 / 2) env.jitter2)]
                    else []), ?_⟩
            rw [if_neg h1, if_neg h2, if_neg h3, if_pos h4]
            simp [List.append_assoc]
          · refine ⟨(List.replicate (parseNodes page.nodes).2 Event.warn
                ++ Event.ingestCommit (parseNodes page.nodes).1
                  :: (match page.endCursor with
                      | some c => [Event.checkpointWrite c]
                      | none => []))
                ++ (if remainingOf page.rateLimit < 1000 then
                      [Event.sleep SleepKind.interPage (safe_sleep (1 / 2) env.jitter2)]
                    else []), ?_⟩
            rw [if_neg h1, if_neg h2, if_neg h3, if_neg h4]
            simp [List.append_assoc]
  · intro hres
    rw [hres]
    unfold governorEvents
    rw [if_pos hrem]
  · intro hres
    have hj2 : 0 ≤ env.jitter * (3 / 10) := by nlinarith
    have hj3 : env.jitter * (3 / 10) < 3 / 10 := by nlinarith
    rcases hres with hres | hres <;>
      · rw [hres]
        unfold governorEvents
        rw [if_pos hrem]
        exact ⟨rfl, hj2, hj3⟩

theorem C4_quota_governor_witness :
    (∃ rest, (crawlStep 100 st0 (FetchResult.ok pageMal) envHalf).2
        = governorEvents (remainingOf pageMal.rateLimit) (resetOf pageMal.rateLimit)
            envHalf.now envHalf.jitter ++ rest)
      ∧ (resetOf pageMal.rateLimit = ResetField.parsed 9 →
           governorEvents (remainingOf pageMal.rateLimit) (resetOf pageMal.rateLimit)
               envHalf.now envHalf.jitter
             = if 0 < 9 - envHalf.now + 5
               then [Event.sleep SleepKind.quotaWait (max 0 (9 - envHalf.now + 5))]
               else [])
      ∧ ((resetOf pageMal.rateLimit = ResetField.absent
            ∨ resetOf pageMal.rateLimit = ResetField.malformed) →
           governorEvents (remainingOf pageMal.rateLimit) (resetOf pageMal.rateLimit)
               envHalf.now envHalf.jitter
               = [Event.sleep SleepKind.quotaFallback (30 + envHalf.jitter * (3 / 10))]
             ∧ 0 ≤ envHalf.jitter * (3 / 10) ∧ envHalf.jitter * (3 / 10) < 3 / 10) :=
  C4_quota_governor 100 st0 envHalf pageMal 9 (by norm_num [remainingOf, pageMal])
    (by norm_num [envHalf]) (by norm_num [envHalf])

/-- Claim C5: ingesting the same batch twice against the same stored
state (same calendar day and clock reading) leaves exactly the rows of a
single ingestion: the tables are equal, so no duplicate rows exist and
the row counts are unchanged by the second run. The hypotheses state the
primary-key invariant of the stored tables. -/
theorem C5_ingestion_idempotent (db : DB) (rows : List Record) (today : Nat) (now : ℚ)
    (hr : (tkeys repoKey db.repos).Nodup)
    (hs : (tkeys snapshotKey db.snapshots).Nodup) :
    upsert_repos_and_snapshots (upsert_repos_and_snapshots db rows today now) rows today now
        = upsert_repos_and_snapshots db rows today now
      ∧ (upsert_repos_and_snapshots (upsert_repos_and_snapshots db rows today now)
            rows today now).repos.length
          = (upsert_repos_and_snapshots db rows today now).repos.length
      ∧ (upsert_repos_and_snapshots (upsert_repos_and_snapshots db rows today now)
            rows today now).snapshots.length
          = (upsert_repos_and_snapshots db rows today now).snapshots.length := by
  have h : upsert_repos_and_snapshots (upsert_repos_and_snapshots db rows today now)
      rows today now = upsert_repos_and_snapshots db rows today now := by
    by_cases hrows : rows = []
    · simp [upsert_repos_and_snapshots, hrows]
    · simp only [upsert_repos_and_snapshots, hrows, if_false, DB.mk.injEq]
      exact ⟨upsertBatch_idem repoKey db.repos _ hr,
             upsertBatch_idem snapshotKey db.snapshots _ hs⟩
  exact ⟨h, by rw [h], by rw [h]⟩

theorem C5_ingestion_idempotent_witness :
    letI db0 : DB := { repos := [], snapshots := [] }
    letI rows0 : List Record := [mkRecord rawGood]
    upsert_repos_and_snapshots (upsert_repos_and_snapshots db0 rows0 3 7) rows0 3 7
        = upsert_repos_and_snapshots db0 rows0 3 7
      ∧ (upsert_repos_and_snapshots (upsert_repos_and_snapshots db0 rows0 3 7)
            rows0 3 7).repos.length
          = (upsert_repos_and_snapshots db0 rows0 3 7).repos.length
      ∧ (upsert_repos_and_snapshots (upsert_repos_and_snapshots db0 rows0 3 7)
            rows0 3 7).snapshots.length
          = (upsert_repos_and_snapshots db0 rows0 3 7).snapshots.length :=
  C5_ingestion_idempotent { repos := [], snapshots := [] } [mkRecord rawGood] 3 7
    (by simp [tkeys]) (by simp [tkeys])

theorem C10_missing_owner_name_kept_witness :
    letI raw : RawNode :=
      { id := some "g", databaseId := some 5, name := none, owner := none,
        url := none, description := none, primaryLanguage := none,
        stargazerCount := none, updatedAt := none }
    ∃ r, parseNode (some raw) = NodeResult.ok r
      ∧ r.owner = ownerLogin raw.owner
      ∧ r.name = raw.name
      ∧ r.full_name = pyStr (ownerLogin raw.owner) ++ "/" ++ pyStr raw.name :=
  C10_missing_owner_name_kept _ (by decide)

end Crawler
